import Mathlib

/-!
Shallow embedding of the identity & profile store of `src/server-simple.js`
(in-memory `users` object keyed by email, token scheme `token-{id}`, and the
register / login / profile / update-profile / forgot-password / logout
handlers), together with theorems settling the specification claims.
-/

namespace GudageHospital

/-- A JSON-ish field value as stored on a user record: a string or `null`.
Profile fields sent in request bodies and stored on records are strings or
null in this server. -/
inductive JsVal
  | str (s : String)
  | null
deriving DecidableEq, Repr

/-- JavaScript truthiness of a `JsVal`: the empty string and `null` are falsy. -/
def JsVal.truthy : JsVal → Bool
  | .str s => s ≠ ""
  | .null => false

/-- JavaScript truthiness of an optional string (`undefined` and `""` falsy),
as used by the handlers' `if (!email || !password)`-style checks. -/
def truthyS : Option String → Bool
  | some s => s ≠ ""
  | none => false

/-- A user record as stored in the in-memory `users` object:
`{ id, email, password, name }` at registration, with the optional profile
properties `mobileNumber`, `alternativeNumber`, `aadharNumber`, `avatar`
(`none` = property absent, i.e. `undefined`). -/
structure User where
  id : String
  email : String
  password : String
  name : String
  mobileNumber : Option JsVal := none
  alternativeNumber : Option JsVal := none
  aadharNumber : Option JsVal := none
  avatar : Option JsVal := none
deriving DecidableEq, Repr

/-- The in-memory database `const users = {}`: an insertion-ordered map from
email key to user record, modelled as an association list (JavaScript objects
iterate string keys in insertion order). -/
abbrev Store := List (String × User)

/-- `users[k]` — lookup of a key in the store. -/
def getKey (s : Store) (k : String) : Option User :=
  (s.find? (fun p => p.1 = k)).map Prod.snd

/-- `users[k] = u` — assignment: overwrites in place when the key exists
(JavaScript keeps the original insertion position), appends otherwise. -/
def setKey : Store → String → User → Store
  | [], k, u => [(k, u)]
  | (k', u') :: rest, k, u =>
      if k' = k then (k, u) :: rest else (k', u') :: setKey rest k u

/-- `delete users[k]` — removes the entry for key `k`. -/
def delKey (s : Store) (k : String) : Store :=
  s.filter (fun p => p.1 ≠ k)

/-- The store keys are pairwise distinct — structural invariant of a
JavaScript object, which cannot hold the same key twice. -/
def keysNodup (s : Store) : Prop :=
  (s.map Prod.fst).Nodup

instance (s : Store) : Decidable (keysNodup s) := by
  unfold keysNodup; infer_instance

/-- The error taxonomy of the spec, carrying the response message.
`ValidationError`/`ConflictError` answer 400, `AuthError` 401,
`NotFoundError` 404, matching the concrete handlers' status codes. -/
inductive ApiError
  | validation (msg : String)
  | conflict (msg : String)
  | auth (msg : String)
  | notFound (msg : String)
deriving DecidableEq, Repr

/-- HTTP status code of each error kind. -/
def ApiError.status : ApiError → Nat
  | .validation _ => 400
  | .conflict _ => 400
  | .auth _ => 401
  | .notFound _ => 404

/-- Response message of each error. -/
def ApiError.message : ApiError → String
  | .validation m => m
  | .conflict m => m
  | .auth m => m
  | .notFound m => m

/-- The `user` object returned by register and login: `{id, email, name}`. -/
structure AuthView where
  id : String
  email : String
  name : String
deriving DecidableEq, Repr

/-- Successful register/login payload: the issued token and the user view. -/
structure AuthSuccess where
  token : String
  user : AuthView
deriving DecidableEq, Repr

/-- Fuel-driven big-endian decimal digit computation (the fuel makes the
recursion structural; `natDigits` supplies enough fuel for any input). -/
def natDigitsGo (fuel n : Nat) : List Nat :=
  match fuel with
  | 0 => []
  | fuel' + 1 => if n < 10 then [n] else natDigitsGo fuel' (n / 10) ++ [n % 10]

/-- Big-endian decimal digits of a natural number (values `0`–`9`). -/
def natDigits (n : Nat) : List Nat :=
  natDigitsGo (n + 1) n

/-- `Date.now().toString()` — the decimal string of a timestamp, used as the
freshly generated user id. -/
def natToString (n : Nat) : String :=
  ⟨(natDigits n).map Nat.digitChar⟩

/-- JavaScript `str.split(sep)` for a single-character separator, on the
character list of the string: `"a@b@".split('@') = ["a","b",""]` and
`"".split('@') = [""]`. -/
def splitChar (sep : Char) : List Char → List (List Char)
  | [] => [[]]
  | c :: rest =>
    match splitChar sep rest with
    | [] => [[]]
    | h :: t => if c = sep then [] :: h :: t else (c :: h) :: t

/-- JavaScript `str.split(sep)` for a single-character separator, as a list
of strings. -/
def jsSplit (s : String) (sep : Char) : List String :=
  (splitChar sep s.data).map String.mk

/-- `email.split('@')[0]` — the default name is the local part of the email. -/
def localPart (email : String) : String :=
  (jsSplit email '@').headD ""

/-- `POST /api/auth/register`.  `now` is the value of `Date.now()` at the
time of the call; body fields are `none` when absent.  Returns the response
and the store after the call. -/
def register (s : Store) (now : Nat) (email? password? name? : Option String) :
    Except ApiError AuthSuccess × Store :=
  if truthyS email? = false || truthyS password? = false then
    (.error (.validation "Email and password required"), s)
  else
    let email := email?.getD ""
    let password := password?.getD ""
    if password.length < 6 then
      (.error (.validation "Password must be 6+ characters"), s)
    else if (getKey s email).isSome then
      (.error (.conflict "User already exists"), s)
    else
      let userId := natToString now
      let nm := if truthyS name? then name?.getD "" else localPart email
      let u : User := { id := userId, email := email, password := password, name := nm }
      (.ok { token := "token-" ++ userId, user := ⟨userId, email, nm⟩ }, setKey s email u)

/-- `POST /api/auth/login`.  Does not touch the store; the unchanged store is
still returned so that store preservation is part of the statement. -/
def login (s : Store) (email? password? : Option String) :
    Except ApiError AuthSuccess × Store :=
  if truthyS email? = false || truthyS password? = false then
    (.error (.validation "Email and password required"), s)
  else
    let email := email?.getD ""
    let password := password?.getD ""
    match getKey s email with
    | none => (.error (.auth "Invalid credentials"), s)
    | some u =>
      if u.password ≠ password then (.error (.auth "Invalid credentials"), s)
      else (.ok { token := "token-" ++ u.id, user := ⟨u.id, u.email, u.name⟩ }, s)

/-- `req.headers.authorization?.split(' ')[1]` — the bearer token, when the
header is present and has a second space-separated component. -/
def extractToken (authHeader : Option String) : Option String :=
  authHeader.bind (fun h => (jsSplit h ' ')[1]?)

/-- `token.split('-')[1]` — the user id encoded in a token, when the token
has a second dash-separated component. -/
def tokenUserId (token : String) : Option String :=
  (jsSplit token '-')[1]?

/-- The linear scan `for (const email in users) if (users[email].id === userId)`:
first entry whose record id matches. -/
def findById (s : Store) (uid : String) : Option (String × User) :=
  s.find? (fun p => p.2.id = uid)

/-- `user.mobileNumber || ''` — string view of an optional profile field. -/
def viewStr : Option JsVal → String
  | some (.str s) => s
  | _ => ""

/-- `user.avatar || null` — avatar view (falsy values collapse to null). -/
def viewAvatar : Option JsVal → JsVal
  | some (.str s) => if s = "" then .null else .str s
  | _ => .null

/-- The full profile view returned by `GET /api/auth/me` and by a successful
update: `{id, email, name, mobileNumber, alternativeNumber, aadharNumber, avatar}`. -/
structure ProfileView where
  id : String
  email : String
  name : String
  mobileNumber : String
  alternativeNumber : String
  aadharNumber : String
  avatar : JsVal
deriving DecidableEq, Repr

/-- Builds the profile view of a stored record. -/
def profileView (u : User) : ProfileView :=
  ⟨u.id, u.email, u.name, viewStr u.mobileNumber, viewStr u.alternativeNumber,
   viewStr u.aadharNumber, viewAvatar u.avatar⟩

/-- `GET /api/auth/me`.  `authHeader` is the `Authorization` header, `none`
when absent.  The store is returned unchanged. -/
def profileGet (s : Store) (authHeader : Option String) :
    Except ApiError ProfileView × Store :=
  match extractToken authHeader with
  | none => (.error (.auth "No token provided"), s)
  | some token =>
    if token = "" then (.error (.auth "No token provided"), s)
    else
      match tokenUserId token with
      | none => (.error (.notFound "User not found"), s)
      | some uid =>
        match findById s uid with
        | none => (.error (.notFound "User not found"), s)
        | some (_, u) => (.ok (profileView u), s)

/-- Body of `POST /api/auth/update-profile`; every field is optional, and for
the four `!== undefined`-checked fields the value itself may be `null`. -/
structure UpdateBody where
  name? : Option String := none
  email? : Option String := none
  mobileNumber? : Option JsVal := none
  alternativeNumber? : Option JsVal := none
  aadharNumber? : Option JsVal := none
  avatar? : Option JsVal := none
deriving DecidableEq, Repr

/-- `if (name) user.name = name` — the name is overwritten only by a truthy
value, and this happens before the email-conflict check. -/
def applyName (u : User) (name? : Option String) : User :=
  if truthyS name? then { u with name := name?.getD "" } else u

/-- The four `if (field !== undefined) user.field = field` updates, applied
after the email handling. -/
def applyFields (u : User) (b : UpdateBody) : User :=
  { u with
    mobileNumber := match b.mobileNumber? with
      | some v => some v
      | none => u.mobileNumber
    alternativeNumber := match b.alternativeNumber? with
      | some v => some v
      | none => u.alternativeNumber
    aadharNumber := match b.aadharNumber? with
      | some v => some v
      | none => u.aadharNumber
    avatar := match b.avatar? with
      | some v => some v
      | none => u.avatar }

/-- Successful update payload: the message and the updated profile view. -/
structure UpdateSuccess where
  message : String
  user : ProfileView
deriving DecidableEq, Repr

/-- `POST /api/auth/update-profile`.  Mirrors the handler's order of effects:
resolve the caller by token scan; apply `name` if truthy; if a truthy `email`
differs from the current key, reject with a conflict when the new key exists
(the name mutation has already happened on the shared record) or re-key by
inserting the new key and deleting the old one; then apply the four
`!== undefined` fields. -/
def updateProfile (s : Store) (authHeader : Option String) (b : UpdateBody) :
    Except ApiError UpdateSuccess × Store :=
  match extractToken authHeader with
  | none => (.error (.auth "No token provided"), s)
  | some token =>
    if token = "" then (.error (.auth "No token provided"), s)
    else
      match tokenUserId token with
      | none => (.error (.notFound "User not found"), s)
      | some uid =>
        match findById s uid with
        | none => (.error (.notFound "User not found"), s)
        | some (userEmail, user) =>
          let user1 := applyName user b.name?
          if truthyS b.email? && decide (b.email?.getD "" ≠ userEmail) then
            let newEmail := b.email?.getD ""
            if (getKey s newEmail).isSome then
              (.error (.conflict "Email already in use"), setKey s userEmail user1)
            else
              let user2 := applyFields user1 b
              (.ok ⟨"Profile updated successfully", profileView user2⟩,
               delKey (setKey s newEmail user2) userEmail)
          else
            let user2 := applyFields user1 b
            (.ok ⟨"Profile updated successfully", profileView user2⟩,
             setKey s userEmail user2)

/-- `POST /api/auth/forgot-password`. -/
def forgotPassword (s : Store) (email? : Option String) :
    Except ApiError String × Store :=
  if truthyS email? = false then
    (.error (.validation "Email is required"), s)
  else
    match getKey s (email?.getD "") with
    | none => (.error (.notFound "User not found"), s)
    | some _ => (.ok "Password reset email sent (demo mode)", s)

/-- `POST /api/auth/logout` — a stateless no-op. -/
def logout (s : Store) : Except ApiError String × Store :=
  (.ok "Logged out successfully", s)

/-- The record ids stored in the database, in insertion order. -/
def storeIds (s : Store) : List String :=
  s.map (fun p => p.2.id)

/-- The stored record ids are pairwise distinct — the intended uniqueness
invariant of generated ids. -/
def idsNodup (s : Store) : Prop :=
  (storeIds s).Nodup

instance (s : Store) : Decidable (idsNodup s) := by
  unfold idsNodup; infer_instance

/-- Value of a big-endian decimal digit list. -/
def digitsVal (ds : List Nat) : Nat :=
  ds.foldl (fun a d => a * 10 + d) 0

/-- Number of stored records carrying a given id. -/
def countId (s : Store) (i : String) : Nat :=
  s.countP (fun p => p.2.id = i)

/-- A concrete registered user, for witnesses and counterexamples. -/
def annUser : User :=
  { id := "1000", email := "a@x.com", password := "secret1", name := "Ann" }

/-- A second concrete registered user with a different email and id. -/
def bobUser : User :=
  { id := "2000", email := "b@x.com", password := "secret2", name := "Bob" }

/-- A concrete two-user store. -/
def demoStore : Store :=
  [("a@x.com", annUser), ("b@x.com", bobUser)]

instance {ε α : Type} [DecidableEq ε] [DecidableEq α] : DecidableEq (Except ε α) :=
  fun x y =>
    match x, y with
    | .ok a, .ok b =>
      if h : a = b then .isTrue (by rw [h]) else .isFalse (by simp [h])
    | .error a, .error b =>
      if h : a = b then .isTrue (by rw [h]) else .isFalse (by simp [h])
    | .ok _, .error _ => .isFalse (by simp)
    | .error _, .ok _ => .isFalse (by simp)

/-! ### Lemmas about the store operations -/

theorem getKey_cons (k₀ : String) (u₀ : User) (tl : Store) (k : String) :
    getKey ((k₀, u₀) :: tl) k = if k₀ = k then some u₀ else getKey tl k := by
  by_cases h : k₀ = k <;> simp [getKey, List.find?, h]

theorem getKey_eq_none_iff (s : Store) (k : String) :
    getKey s k = none ↔ ∀ p ∈ s, p.1 ≠ k := by
  unfold getKey
  rw [Option.map_eq_none', List.find?_eq_none]
  simp

theorem getKey_setKey_self (s : Store) (k : String) (u : User) :
    getKey (setKey s k u) k = some u := by
  induction s with
  | nil => simp [getKey, setKey, List.find?]
  | cons hd tl ih =>
    obtain ⟨k₀, u₀⟩ := hd
    by_cases h : k₀ = k
    · subst h; simp [setKey, getKey_cons]
    · rw [setKey, if_neg h, getKey_cons, if_neg h]
      exact ih

theorem getKey_setKey_ne (s : Store) (k k' : String) (u : User) (h : k' ≠ k) :
    getKey (setKey s k u) k' = getKey s k' := by
  induction s with
  | nil => simp [getKey, setKey, List.find?, Ne.symm h]
  | cons hd tl ih =>
    obtain ⟨k₀, u₀⟩ := hd
    by_cases h₀ : k₀ = k
    · subst h₀
      rw [setKey, if_pos rfl, getKey_cons, getKey_cons, if_neg (Ne.symm h)]
      rw [if_neg fun hk => h (hk.symm)]
    · rw [setKey, if_neg h₀, getKey_cons, getKey_cons]
      by_cases h₁ : k₀ = k'
      · simp [h₁]
      · rw [if_neg h₁, if_neg h₁]
        exact ih

theorem setKey_of_getKey_none (s : Store) (k : String) (u : User)
    (h : getKey s k = none) : setKey s k u = s ++ [(k, u)] := by
  induction s with
  | nil => simp [setKey]
  | cons hd tl ih =>
    obtain ⟨k₀, u₀⟩ := hd
    rw [getKey_cons] at h
    by_cases h₀ : k₀ = k
    · rw [if_pos h₀] at h; exact absurd h (by simp)
    · rw [if_neg h₀] at h
      rw [setKey, if_neg h₀, List.cons_append]
      exact congrArg _ (ih h)

theorem setKey_eq_self (s : Store) (k : String) (u : User)
    (hnd : keysNodup s) (hmem : (k, u) ∈ s) : setKey s k u = s := by
  induction s with
  | nil => simp at hmem
  | cons hd tl ih =>
    obtain ⟨k₀, u₀⟩ := hd
    simp only [keysNodup, List.map_cons, List.nodup_cons] at hnd
    rcases List.mem_cons.mp hmem with heq | hmem'
    · rw [setKey]
      have hk : k₀ = k := (Prod.mk.injEq _ _ _ _ ▸ heq.symm).1
      subst hk
      rw [if_pos rfl]
      have hu : u₀ = u := (Prod.mk.injEq _ _ _ _ ▸ heq.symm).2
      rw [hu]
    · have hk : k₀ ≠ k := by
        intro h; subst h
        exact hnd.1 (List.mem_map.mpr ⟨(k₀, u), hmem', rfl⟩)
      rw [setKey, if_neg hk]
      exact congrArg _ (ih hnd.2 hmem')

theorem getKey_eq_of_mem (s : Store) (k : String) (u : User)
    (hnd : keysNodup s) (hmem : (k, u) ∈ s) : getKey s k = some u := by
  induction s with
  | nil => simp at hmem
  | cons hd tl ih =>
    obtain ⟨k₀, u₀⟩ := hd
    simp only [keysNodup, List.map_cons, List.nodup_cons] at hnd
    rcases List.mem_cons.mp hmem with heq | hmem'
    · have hk : k₀ = k := (Prod.mk.injEq _ _ _ _ ▸ heq.symm).1
      have hu : u₀ = u := (Prod.mk.injEq _ _ _ _ ▸ heq.symm).2
      subst hk; rw [getKey_cons, if_pos rfl, hu]
    · have hk : k₀ ≠ k := by
        intro h; subst h
        exact hnd.1 (List.mem_map.mpr ⟨(k₀, u), hmem', rfl⟩)
      rw [getKey_cons, if_neg hk]
      exact ih hnd.2 hmem'

theorem getKey_append_of_none (s t : Store) (k : String)
    (h : getKey s k = none) : getKey (s ++ t) k = getKey t k := by
  induction s with
  | nil => simp
  | cons hd tl ih =>
    obtain ⟨k₀, u₀⟩ := hd
    rw [getKey_cons] at h
    by_cases h₀ : k₀ = k
    · rw [if_pos h₀] at h; exact absurd h (by simp)
    · rw [if_neg h₀] at h
      rw [List.cons_append, getKey_cons, if_neg h₀]
      exact ih h

theorem getKey_delKey_of_none (s : Store) (e k : String)
    (h : getKey s k = none) : getKey (delKey s e) k = none := by
  rw [getKey_eq_none_iff] at h ⊢
  intro p hp
  exact h p (List.mem_of_mem_filter hp)

theorem delKey_eq_self_of_none (s : Store) (k : String)
    (h : getKey s k = none) : delKey s k = s := by
  rw [getKey_eq_none_iff] at h
  unfold delKey
  rw [List.filter_eq_self]
  intro p hp
  simpa using h p hp

theorem findById_mem (s : Store) (uid : String) (k : String) (u : User)
    (h : findById s uid = some (k, u)) : (k, u) ∈ s :=
  List.mem_of_find?_eq_some h

theorem findById_id (s : Store) (uid : String) (k : String) (u : User)
    (h : findById s uid = some (k, u)) : u.id = uid := by
  have := List.find?_some h
  simpa using this

/-! ### Injectivity of the decimal id string -/

theorem digitsVal_append_singleton (ds : List Nat) (d : Nat) :
    digitsVal (ds ++ [d]) = digitsVal ds * 10 + d := by
  unfold digitsVal
  rw [List.foldl_append]
  rfl

theorem digitsVal_natDigitsGo :
    ∀ fuel n, n < fuel → digitsVal (natDigitsGo fuel n) = n := by
  intro fuel
  induction fuel with
  | zero => intro n h; omega
  | succ fuel' ih =>
    intro n h
    simp only [natDigitsGo]
    by_cases h10 : n < 10
    · rw [if_pos h10]
      simp [digitsVal]
    · rw [if_neg h10]
      rw [digitsVal_append_singleton]
      rw [ih (n / 10) (by omega)]
      omega

theorem digitsVal_natDigits (n : Nat) : digitsVal (natDigits n) = n :=
  digitsVal_natDigitsGo (n + 1) n (by omega)

theorem natDigits_injective : Function.Injective natDigits :=
  Function.LeftInverse.injective digitsVal_natDigits

theorem natDigitsGo_lt_ten :
    ∀ fuel n, ∀ d ∈ natDigitsGo fuel n, d < 10 := by
  intro fuel
  induction fuel with
  | zero => intro n d hd; simp [natDigitsGo] at hd
  | succ fuel' ih =>
    intro n d hd
    simp only [natDigitsGo] at hd
    by_cases h10 : n < 10
    · rw [if_pos h10] at hd
      simp at hd
      omega
    · rw [if_neg h10] at hd
      rcases List.mem_append.mp hd with h₁ | h₂
      · exact ih (n / 10) d h₁
      · simp at h₂
        omega

theorem natDigits_lt_ten (n : Nat) : ∀ d ∈ natDigits n, d < 10 :=
  natDigitsGo_lt_ten (n + 1) n

theorem digitChar_left_inverse (d : Nat) (h : d < 10) :
    (Nat.digitChar d).toNat - 48 = d := by
  interval_cases d <;> rfl

theorem natToString_injective : Function.Injective natToString := by
  intro n m h
  unfold natToString at h
  have hdata : (natDigits n).map Nat.digitChar = (natDigits m).map Nat.digitChar := by
    exact congrArg String.data h
  have hrec : ∀ k : Nat,
      ((natDigits k).map Nat.digitChar).map (fun c => c.toNat - 48) = natDigits k := by
    intro k
    rw [List.map_map]
    calc (natDigits k).map ((fun c : Char => c.toNat - 48) ∘ Nat.digitChar)
        = (natDigits k).map id := by
          apply List.map_congr_left
          intro d hd
          exact digitChar_left_inverse d (natDigits_lt_ten k d hd)
      _ = natDigits k := List.map_id _
  have : natDigits n = natDigits m := by
    rw [← hrec n, ← hrec m, hdata]
  exact natDigits_injective this

/-! ### Counting records by id -/

theorem countId_cons (k : String) (u : User) (tl : Store) (i : String) :
    countId ((k, u) :: tl) i = countId tl i + (if u.id = i then 1 else 0) := by
  unfold countId
  rw [List.countP_cons]
  by_cases h : u.id = i <;> simp [h]

theorem countId_append (s t : Store) (i : String) :
    countId (s ++ t) i = countId s i + countId t i := by
  unfold countId
  exact List.countP_append _ _ _

theorem countId_pos_iff (s : Store) (i : String) :
    0 < countId s i ↔ i ∈ storeIds s := by
  unfold countId storeIds
  rw [List.countP_pos_iff]
  constructor
  · rintro ⟨p, hp, hpi⟩
    exact List.mem_map.mpr ⟨p, hp, by simpa using hpi⟩
  · rintro h
    obtain ⟨p, hp, hpi⟩ := List.mem_map.mp h
    exact ⟨p, hp, by simpa using hpi⟩

theorem keysNodup_cons_iff (k : String) (u : User) (tl : Store) :
    keysNodup ((k, u) :: tl) ↔ (∀ v : User, (k, v) ∉ tl) ∧ keysNodup tl := by
  unfold keysNodup
  simp only [List.map_cons, List.nodup_cons]
  constructor
  · rintro ⟨hk, hnd⟩
    refine ⟨fun v hv => hk (List.mem_map.mpr ⟨(k, v), hv, rfl⟩), hnd⟩
  · rintro ⟨hk, hnd⟩
    refine ⟨fun hmem => ?_, hnd⟩
    obtain ⟨⟨k', v⟩, hv, hkv⟩ := List.mem_map.mp hmem
    cases hkv
    exact hk v hv

theorem countId_setKey (s : Store) (k : String) (u u' : User) (i : String)
    (hnd : keysNodup s) (hmem : (k, u) ∈ s) (hid : u'.id = u.id) :
    countId (setKey s k u') i = countId s i := by
  induction s with
  | nil => simp at hmem
  | cons hd tl ih =>
    obtain ⟨k₀, u₀⟩ := hd
    rw [keysNodup_cons_iff] at hnd
    by_cases h₀ : k₀ = k
    · subst h₀
      have hu : u₀ = u := by
        rcases List.mem_cons.mp hmem with heq | hmem'
        · rw [Prod.mk.injEq] at heq
          exact heq.2.symm
        · exact absurd hmem' (hnd.1 u)
      rw [setKey, if_pos rfl, countId_cons, countId_cons, hid, hu]
    · have hmem' : (k, u) ∈ tl := by
        rcases List.mem_cons.mp hmem with heq | hmem'
        · rw [Prod.mk.injEq] at heq
          exact absurd heq.1.symm h₀
        · exact hmem'
      rw [setKey, if_neg h₀, countId_cons, countId_cons, ih hnd.2 hmem']

theorem countId_delKey (s : Store) (k : String) (u : User) (i : String)
    (hnd : keysNodup s) (hmem : (k, u) ∈ s) :
    countId (delKey s k) i + (if u.id = i then 1 else 0) = countId s i := by
  induction s with
  | nil => simp at hmem
  | cons hd tl ih =>
    obtain ⟨k₀, u₀⟩ := hd
    rw [keysNodup_cons_iff] at hnd
    by_cases h₀ : k₀ = k
    · subst h₀
      have hu : u₀ = u := by
        rcases List.mem_cons.mp hmem with heq | hmem'
        · rw [Prod.mk.injEq] at heq
          exact heq.2.symm
        · exact absurd hmem' (hnd.1 u)
      have htl : delKey tl k₀ = tl := by
        apply delKey_eq_self_of_none
        rw [getKey_eq_none_iff]
        rintro ⟨p1, p2⟩ hp hpk
        have hpk' : p1 = k₀ := hpk
        subst hpk'
        exact hnd.1 p2 hp
      unfold delKey
      rw [List.filter_cons_of_neg (by simp)]
      rw [← delKey, htl, countId_cons, hu]
    · have hmem' : (k, u) ∈ tl := by
        rcases List.mem_cons.mp hmem with heq | hmem'
        · rw [Prod.mk.injEq] at heq
          exact absurd heq.1.symm h₀
        · exact hmem'
      unfold delKey
      rw [List.filter_cons_of_pos (by simpa using h₀)]
      rw [← delKey, countId_cons, countId_cons]
      have := ih hnd.2 hmem'
      omega

/-! ### Locating a record by id after a re-key -/

theorem findById_cons (k : String) (u : User) (tl : Store) (uid : String) :
    findById ((k, u) :: tl) uid =
      if u.id = uid then some (k, u) else findById tl uid := by
  by_cases h : u.id = uid <;> simp [findById, List.find?, h]

theorem findById_eq_none_iff (s : Store) (uid : String) :
    findById s uid = none ↔ ∀ p ∈ s, p.2.id ≠ uid := by
  unfold findById
  rw [List.find?_eq_none]
  simp

theorem findById_delKey_of_idsNodup (s : Store) (uid k : String) (u : User)
    (hid : idsNodup s) (hfind : findById s uid = some (k, u)) :
    findById (delKey s k) uid = none := by
  induction s with
  | nil => simp [findById, List.find?] at hfind
  | cons hd tl ih =>
    obtain ⟨k₀, u₀⟩ := hd
    unfold idsNodup storeIds at hid
    simp only [List.map_cons, List.nodup_cons] at hid
    rw [findById_cons] at hfind
    by_cases h₀ : u₀.id = uid
    · rw [if_pos h₀] at hfind
      rw [Option.some.injEq, Prod.mk.injEq] at hfind
      obtain ⟨hk, _⟩ := hfind
      subst hk
      unfold delKey
      rw [List.filter_cons_of_neg (by simp)]
      rw [← delKey, findById_eq_none_iff]
      intro p hp hpid
      have hp' : p ∈ tl := List.mem_of_mem_filter hp
      exact hid.1 (List.mem_map.mpr ⟨p, hp', by rw [hpid, ← h₀]⟩)
    · rw [if_neg h₀] at hfind
      by_cases hk₀ : k₀ = k
      · unfold delKey
        rw [List.filter_cons_of_neg (by simp [hk₀])]
        exact ih hid.2 hfind
      · unfold delKey
        rw [List.filter_cons_of_pos (by simpa using hk₀)]
        rw [← delKey, findById_cons, if_neg h₀]
        exact ih hid.2 hfind

theorem findById_append_of_none (s t : Store) (uid : String)
    (h : findById s uid = none) : findById (s ++ t) uid = findById t uid := by
  induction s with
  | nil => simp
  | cons hd tl ih =>
    obtain ⟨k₀, u₀⟩ := hd
    rw [findById_cons] at h
    by_cases h₀ : u₀.id = uid
    · rw [if_pos h₀] at h; exact absurd h (by simp)
    · rw [if_neg h₀] at h
      rw [List.cons_append, findById_cons, if_neg h₀]
      exact ih h

/-! ### Field-level lemmas about the profile update -/

theorem applyName_id (u : User) (n? : Option String) : (applyName u n?).id = u.id := by
  unfold applyName; split <;> rfl

theorem applyName_email (u : User) (n? : Option String) :
    (applyName u n?).email = u.email := by
  unfold applyName; split <;> rfl

theorem applyName_password (u : User) (n? : Option String) :
    (applyName u n?).password = u.password := by
  unfold applyName; split <;> rfl

theorem applyName_name (u : User) (n? : Option String) :
    (applyName u n?).name = if truthyS n? then n?.getD "" else u.name := by
  unfold applyName; split <;> simp_all

theorem applyName_mobileNumber (u : User) (n? : Option String) :
    (applyName u n?).mobileNumber = u.mobileNumber := by
  unfold applyName; split <;> rfl

theorem applyName_alternativeNumber (u : User) (n? : Option String) :
    (applyName u n?).alternativeNumber = u.alternativeNumber := by
  unfold applyName; split <;> rfl

theorem applyName_aadharNumber (u : User) (n? : Option String) :
    (applyName u n?).aadharNumber = u.aadharNumber := by
  unfold applyName; split <;> rfl

theorem applyName_avatar (u : User) (n? : Option String) :
    (applyName u n?).avatar = u.avatar := by
  unfold applyName; split <;> rfl

theorem applyFields_id (u : User) (b : UpdateBody) : (applyFields u b).id = u.id := rfl

theorem applyFields_email (u : User) (b : UpdateBody) :
    (applyFields u b).email = u.email := rfl

theorem applyFields_password (u : User) (b : UpdateBody) :
    (applyFields u b).password = u.password := rfl

theorem applyFields_name (u : User) (b : UpdateBody) :
    (applyFields u b).name = u.name := rfl

theorem applyFields_mobileNumber (u : User) (b : UpdateBody) :
    (applyFields u b).mobileNumber =
      match b.mobileNumber? with
      | some v => some v
      | none => u.mobileNumber := rfl

theorem applyFields_alternativeNumber (u : User) (b : UpdateBody) :
    (applyFields u b).alternativeNumber =
      match b.alternativeNumber? with
      | some v => some v
      | none => u.alternativeNumber := rfl

theorem applyFields_aadharNumber (u : User) (b : UpdateBody) :
    (applyFields u b).aadharNumber =
      match b.aadharNumber? with
      | some v => some v
      | none => u.aadharNumber := rfl

theorem applyFields_avatar (u : User) (b : UpdateBody) :
    (applyFields u b).avatar =
      match b.avatar? with
      | some v => some v
      | none => u.avatar := rfl

/-- A successful registration returns the decimal `Date.now` string as the
new user's id. -/
theorem register_ok_id (s : Store) (now : Nat) (e p n : Option String)
    (a : AuthSuccess) (h : (register s now e p n).1 = .ok a) :
    a.user.id = natToString now := by
  unfold register at h
  simp only [] at h
  repeat' split at h
  all_goals first
    | exact Except.noConfusion h
    | (have h' := Except.ok.inj h; rw [← h'])

/-! ### Scenario lemmas: the three outcomes of a resolved update -/

/-- On a resolved caller the update first applies a truthy `name`; when the
requested email is truthy, differs from the current key, and is already a
key of the store, the handler answers the conflict error with the name
mutation already persisted. -/
theorem updateProfile_conflict_eq (s : Store) (ah : Option String) (tok uid userEmail newEmail : String)
    (user : User) (b : UpdateBody)
    (hext : extractToken ah = some tok) (htne : tok ≠ "")
    (htuid : tokenUserId tok = some uid)
    (hfind : findById s uid = some (userEmail, user))
    (hb : b.email? = some newEmail) (hne2 : newEmail ≠ "") (hdiff : newEmail ≠ userEmail)
    (htaken : (getKey s newEmail).isSome = true) :
    updateProfile s ah b =
      (.error (.conflict "Email already in use"),
       setKey s userEmail (applyName user b.name?)) := by
  have hcond : (truthyS b.email? && decide (b.email?.getD "" ≠ userEmail)) = true := by
    rw [hb]
    simp [truthyS, hne2, hdiff]
  unfold updateProfile
  rw [hext]
  simp only [htuid, hfind, if_neg htne, hcond, if_true]
  rw [hb]
  simp only [Option.getD_some, htaken, if_true]

/-- On a resolved caller, when the requested email is truthy, differs from
the current key, and is not yet a key of the store, the handler re-keys:
the updated record is appended under the new email and the old key deleted. -/
theorem updateProfile_rekey_eq (s : Store) (ah : Option String) (tok uid userEmail newEmail : String)
    (user : User) (b : UpdateBody)
    (hext : extractToken ah = some tok) (htne : tok ≠ "")
    (htuid : tokenUserId tok = some uid)
    (hfind : findById s uid = some (userEmail, user))
    (hb : b.email? = some newEmail) (hne2 : newEmail ≠ "") (hdiff : newEmail ≠ userEmail)
    (hfresh : getKey s newEmail = none) :
    updateProfile s ah b =
      (.ok ⟨"Profile updated successfully",
            profileView (applyFields (applyName user b.name?) b)⟩,
       delKey (setKey s newEmail (applyFields (applyName user b.name?) b)) userEmail) := by
  have hcond : (truthyS b.email? && decide (b.email?.getD "" ≠ userEmail)) = true := by
    rw [hb]
    simp [truthyS, hne2, hdiff]
  unfold updateProfile
  rw [hext]
  simp only [htuid, hfind, if_neg htne, hcond, if_true]
  rw [hb]
  simp only [Option.getD_some, hfresh, Option.isSome_none, Bool.false_eq_true, if_false]

/-- On a resolved caller, when no truthy different email is requested, the
update rewrites the caller's record in place under its current key. -/
theorem updateProfile_norekey_eq (s : Store) (ah : Option String) (tok uid userEmail : String)
    (user : User) (b : UpdateBody)
    (hext : extractToken ah = some tok) (htne : tok ≠ "")
    (htuid : tokenUserId tok = some uid)
    (hfind : findById s uid = some (userEmail, user))
    (hcond : (truthyS b.email? && decide (b.email?.getD "" ≠ userEmail)) = false) :
    updateProfile s ah b =
      (.ok ⟨"Profile updated successfully",
            profileView (applyFields (applyName user b.name?) b)⟩,
       setKey s userEmail (applyFields (applyName user b.name?) b)) := by
  unfold updateProfile
  rw [hext]
  simp only [htuid, hfind, if_neg htne, hcond, Bool.false_eq_true, if_false]

/-! ### Claim theorems -/

/-- C4: register fails with ValidationError when email or password is
missing (falsy), with ValidationError when the provided password is shorter
than 6, and with ConflictError when a user already exists under the email;
in each failure case the store is returned unchanged. -/
theorem register_failure_cases (s : Store) (now : Nat) (e p n : Option String) :
    (truthyS e = false ∨ truthyS p = false →
      register s now e p n = (.error (.validation "Email and password required"), s)) ∧
    (truthyS e = true → truthyS p = true → (p.getD "").length < 6 →
      register s now e p n = (.error (.validation "Password must be 6+ characters"), s)) ∧
    (truthyS e = true → truthyS p = true → ¬(p.getD "").length < 6 →
      (getKey s (e.getD "")).isSome = true →
      register s now e p n = (.error (.conflict "User already exists"), s)) := by
  refine ⟨?_, ?_, ?_⟩
  · intro h
    unfold register
    rcases h with h | h <;> simp [h]
  · intro h1 h2 h3
    unfold register
    simp [h1, h2, h3]
  · intro h1 h2 h3 h4
    unfold register
    simp [h1, h2, h3, h4]

/-- Witness for C4: all three failure cases at concrete inputs. -/
theorem register_failure_cases_witness :
    register [] 1000 none (some "secret1") none
        = (.error (.validation "Email and password required"), []) ∧
    register [] 1000 (some "a@x.com") (some "abc") none
        = (.error (.validation "Password must be 6+ characters"), []) ∧
    register demoStore 1000 (some "a@x.com") (some "secret99") none
        = (.error (.conflict "User already exists"), demoStore) :=
  ⟨(register_failure_cases [] 1000 none (some "secret1") none).1 (Or.inl (by decide)),
   (register_failure_cases [] 1000 (some "a@x.com") (some "abc") none).2.1
     (by decide) (by decide) (by decide),
   (register_failure_cases demoStore 1000 (some "a@x.com") (some "secret99") none).2.2
     (by decide) (by decide) (by decide) (by decide)⟩

/-- C7: login with a provided (truthy) email and password answers the one
fixed AuthError value — status 401, message "Invalid credentials" — both
when the email is unknown and when the stored password differs, so the two
failure cases are observationally identical and the store is unchanged. -/
theorem login_invalid_credentials_uniform (s : Store) (e p : String)
    (he : e ≠ "") (hp : p ≠ "")
    (hbad : getKey s e = none ∨ ∃ u, getKey s e = some u ∧ u.password ≠ p) :
    login s (some e) (some p) = (.error (.auth "Invalid credentials"), s) ∧
    (ApiError.auth "Invalid credentials").status = 401 := by
  constructor
  · rcases hbad with h | ⟨u, hu, hpw⟩
    · unfold login
      simp [truthyS, he, hp, h]
    · unfold login
      simp [truthyS, he, hp, hu, hpw]
  · rfl

/-- Witness for C7: a wrong password for a registered user. -/
theorem login_invalid_credentials_uniform_witness :
    login demoStore (some "a@x.com") (some "wrongpw")
        = (.error (.auth "Invalid credentials"), demoStore) ∧
    (ApiError.auth "Invalid credentials").status = 401 :=
  login_invalid_credentials_uniform demoStore "a@x.com" "wrongpw" (by decide) (by decide)
    (Or.inr ⟨annUser, by decide, by decide⟩)

/-- C5 counterexample: two successful registrations of different users in
the same `Date.now()` tick produce the same id, so a freshly generated id
can collide with an id already present in the store. -/
theorem register_same_tick_id_collision :
    ∃ a b : AuthSuccess,
      (register [] 1000 (some "a@x.com") (some "secret1") none).1 = .ok a ∧
      (register (register [] 1000 (some "a@x.com") (some "secret1") none).2 1000
          (some "b@x.com") (some "secret2") none).1 = .ok b ∧
      a.user.email ≠ b.user.email ∧ a.user.id = b.user.id :=
  ⟨⟨"token-" ++ natToString 1000, ⟨natToString 1000, "a@x.com", "a"⟩⟩,
   ⟨"token-" ++ natToString 1000, ⟨natToString 1000, "b@x.com", "b"⟩⟩,
   by decide, by decide, by decide, rfl⟩

/-- C5 (amended): ids of two successful registrations are distinct provided
the two calls observe distinct `Date.now()` values — the id is the decimal
string of the timestamp, which is injective. -/
theorem register_distinct_ticks_distinct_ids (s1 s2 : Store) (t1 t2 : Nat)
    (e1 p1 n1 e2 p2 n2 : Option String) (a b : AuthSuccess)
    (hne : t1 ≠ t2)
    (h1 : (register s1 t1 e1 p1 n1).1 = .ok a)
    (h2 : (register s2 t2 e2 p2 n2).1 = .ok b) :
    a.user.id ≠ b.user.id := by
  rw [register_ok_id s1 t1 e1 p1 n1 a h1, register_ok_id s2 t2 e2 p2 n2 b h2]
  exact fun hc => hne (natToString_injective hc)

/-- Witness for C5 (amended): ticks 1 and 2 give different ids. -/
theorem register_distinct_ticks_distinct_ids_witness :
    (AuthSuccess.mk ("token-" ++ natToString 1) ⟨natToString 1, "a@x.com", "a"⟩).user.id ≠
      (AuthSuccess.mk ("token-" ++ natToString 2) ⟨natToString 2, "b@x.com", "b"⟩).user.id :=
  register_distinct_ticks_distinct_ids [] [] 1 2
    (some "a@x.com") (some "secret1") none (some "b@x.com") (some "secret2") none
    _ _ (by decide) (by decide) (by decide)

/-- C8 counterexample: a present but malformed bearer token ("garbage" has
no dash, so no id can be extracted) is answered with NotFoundError 404, not
with the AuthError 401 boundary rejection the claim requires. -/
theorem malformed_token_notFound_cex :
    extractToken (some "Bearer garbage") = some "garbage" ∧
    tokenUserId "garbage" = none ∧
    (profileGet demoStore (some "Bearer garbage")).1
        = .error (.notFound "User not found") ∧
    (ApiError.notFound "User not found").status = 404 ∧ (404 : Nat) ≠ 401 :=
  ⟨rfl, rfl, rfl, rfl, by decide⟩

/-- C8 (amended): only an absent or empty bearer token is rejected at the
boundary as AuthError 401 "No token provided"; any present non-empty token —
well-formed or malformed — whose extracted id matches no stored user is
answered with NotFoundError 404, an outcome distinct from the 401 boundary
rejection; this holds for both token-bearing endpoints. -/
theorem token_resolution_boundary (s : Store) (h : Option String) (b : UpdateBody) :
    ((extractToken h = none ∨ extractToken h = some "") →
      (profileGet s h).1 = .error (.auth "No token provided") ∧
      (updateProfile s h b).1 = .error (.auth "No token provided")) ∧
    (∀ tok, extractToken h = some tok → tok ≠ "" →
      (tokenUserId tok = none ∨
        (∃ uid, tokenUserId tok = some uid ∧ findById s uid = none)) →
      (profileGet s h).1 = .error (.notFound "User not found") ∧
      (updateProfile s h b).1 = .error (.notFound "User not found")) ∧
    (ApiError.auth "No token provided").status ≠
      (ApiError.notFound "User not found").status := by
  refine ⟨?_, ?_, by decide⟩
  · rintro (hnone | hempty)
    · constructor
      · unfold profileGet; rw [hnone]
      · unfold updateProfile; rw [hnone]
    · constructor
      · unfold profileGet; simp [hempty]
      · unfold updateProfile; simp [hempty]
  · rintro tok hex htne (hmal | ⟨uid, huid, hnof⟩)
    · constructor
      · unfold profileGet; simp [hex, htne, hmal]
      · unfold updateProfile; simp [hex, htne, hmal]
    · constructor
      · unfold profileGet; simp [hex, htne, huid, hnof]
      · unfold updateProfile; simp [hex, htne, huid, hnof]

/-- Witness for C8 (amended): a token whose id matches no user on the empty
store is answered 404 by both endpoints. -/
theorem token_resolution_boundary_witness :
    (profileGet [] (some "Bearer token-9")).1 = .error (.notFound "User not found") ∧
    (updateProfile [] (some "Bearer token-9") ⟨none, none, none, none, none, none⟩).1
        = .error (.notFound "User not found") :=
  (token_resolution_boundary [] (some "Bearer token-9")
      ⟨none, none, none, none, none, none⟩).2.1
    "token-9" (by decide) (by decide) (Or.inr ⟨"9", by decide, rfl⟩)

/-- C1 counterexample: a conflicting email change whose request also carries
a truthy name mutates the caller's stored name before the conflict check, so
the operation does not leave the caller's record unchanged. -/
theorem updateProfile_conflict_mutates_name_cex :
    (updateProfile demoStore (some "Bearer token-1000")
        { name? := some "X", email? := some "b@x.com" }).1
      = .error (.conflict "Email already in use") ∧
    getKey (updateProfile demoStore (some "Bearer token-1000")
        { name? := some "X", email? := some "b@x.com" }).2 "a@x.com"
      = some { annUser with name := "X" } ∧
    annUser.name = "Ann" :=
  ⟨by decide, by decide, rfl⟩

/-- C1 (amended): an updateProfile that changes email to one already used by
a different user fails with ConflictError and leaves every record unchanged
except that the caller's `name` is overwritten when the request provides a
truthy name (and only then); every other field of the caller and every other
key of the store keep their original values. -/
theorem updateProfile_conflict_no_partial_mutation (s : Store)
    (ah : Option String) (tok uid userEmail newEmail : String)
    (user : User) (b : UpdateBody)
    (hnd : keysNodup s)
    (hext : extractToken ah = some tok) (htne : tok ≠ "")
    (htuid : tokenUserId tok = some uid)
    (hfind : findById s uid = some (userEmail, user))
    (hb : b.email? = some newEmail) (hne2 : newEmail ≠ "") (hdiff : newEmail ≠ userEmail)
    (htaken : (getKey s newEmail).isSome = true) :
    (updateProfile s ah b).1 = .error (.conflict "Email already in use") ∧
    (∀ k, k ≠ userEmail → getKey (updateProfile s ah b).2 k = getKey s k) ∧
    (∃ u', getKey (updateProfile s ah b).2 userEmail = some u' ∧
      u'.name = (if truthyS b.name? then b.name?.getD "" else user.name) ∧
      u'.id = user.id ∧ u'.email = user.email ∧ u'.password = user.password ∧
      u'.mobileNumber = user.mobileNumber ∧
      u'.alternativeNumber = user.alternativeNumber ∧
      u'.aadharNumber = user.aadharNumber ∧ u'.avatar = user.avatar) ∧
    (truthyS b.name? = false → (updateProfile s ah b).2 = s) := by
  have heq := updateProfile_conflict_eq s ah tok uid userEmail newEmail user b
    hext htne htuid hfind hb hne2 hdiff htaken
  rw [heq]
  refine ⟨rfl, ?_, ?_, ?_⟩
  · intro k hk
    exact getKey_setKey_ne s userEmail k _ hk
  · exact ⟨applyName user b.name?, getKey_setKey_self s userEmail _,
      applyName_name user b.name?, applyName_id user b.name?,
      applyName_email user b.name?, applyName_password user b.name?,
      applyName_mobileNumber user b.name?, applyName_alternativeNumber user b.name?,
      applyName_aadharNumber user b.name?, applyName_avatar user b.name?⟩
  · intro hf
    have hone : applyName user b.name? = user := by
      unfold applyName
      rw [hf]
      simp
    rw [hone]
    exact setKey_eq_self s userEmail user hnd (findById_mem s uid userEmail user hfind)

/-- Witness for C1 (amended): on the two-user demo store a conflicting email
change without a name leaves the store exactly as it was. -/
theorem updateProfile_conflict_no_partial_mutation_witness :
    (updateProfile demoStore (some "Bearer token-1000")
        { email? := some "b@x.com" }).2 = demoStore :=
  (updateProfile_conflict_no_partial_mutation demoStore (some "Bearer token-1000")
      "token-1000" "1000" "a@x.com" "b@x.com" annUser { email? := some "b@x.com" }
      (by decide) (by decide) (by decide) (by decide) (by decide) (by decide)
      (by decide) (by decide) (by decide)).2.2.2 (by decide)

/-- C2: the code-level divergence — a successful email change re-keys the
record (the new email becomes the key, registration under it now conflicts,
the old key is gone) but never assigns `user.email`, so a profile GET with
the same token still reports the old email, not the new one. -/
theorem updateProfile_email_view_stale_bug :
    (updateProfile demoStore (some "Bearer token-1000")
        { email? := some "c@x.com" }).1
      = .ok ⟨"Profile updated successfully",
             ⟨"1000", "a@x.com", "Ann", "", "", "", .null⟩⟩ ∧
    getKey (updateProfile demoStore (some "Bearer token-1000")
        { email? := some "c@x.com" }).2 "c@x.com" = some annUser ∧
    getKey (updateProfile demoStore (some "Bearer token-1000")
        { email? := some "c@x.com" }).2 "a@x.com" = none ∧
    (profileGet (updateProfile demoStore (some "Bearer token-1000")
        { email? := some "c@x.com" }).2 (some "Bearer token-1000")).1
      = .ok ⟨"1000", "a@x.com", "Ann", "", "", "", .null⟩ ∧
    ("a@x.com" : String) ≠ "c@x.com" :=
  ⟨by decide, by decide, by decide, by decide, by decide⟩

/-- C3: a successful updateProfile that changes email to an unused value
keeps the caller's id and every profile field not present in the request,
and the token issued before the change still locates the re-keyed record
(both the raw id scan and the profile GET with the original header find it
under the new email key). -/
theorem updateProfile_rekey_preserves (s : Store) (ah : Option String)
    (tok userEmail newEmail : String) (user : User) (b : UpdateBody)
    (hid : idsNodup s)
    (hext : extractToken ah = some tok) (htne : tok ≠ "")
    (htuid : tokenUserId tok = some user.id)
    (hfind : findById s user.id = some (userEmail, user))
    (hb : b.email? = some newEmail) (hne2 : newEmail ≠ "") (hdiff : newEmail ≠ userEmail)
    (hfresh : getKey s newEmail = none) :
    ∃ u', (updateProfile s ah b).1
        = .ok ⟨"Profile updated successfully", profileView u'⟩ ∧
      u'.id = user.id ∧ u'.password = user.password ∧
      findById (updateProfile s ah b).2 user.id = some (newEmail, u') ∧
      (profileGet (updateProfile s ah b).2 ah).1 = .ok (profileView u') ∧
      (b.name? = none → u'.name = user.name) ∧
      (b.mobileNumber? = none → u'.mobileNumber = user.mobileNumber) ∧
      (b.alternativeNumber? = none → u'.alternativeNumber = user.alternativeNumber) ∧
      (b.aadharNumber? = none → u'.aadharNumber = user.aadharNumber) ∧
      (b.avatar? = none → u'.avatar = user.avatar) := by
  have heq := updateProfile_rekey_eq s ah tok user.id userEmail newEmail user b
    hext htne htuid hfind hb hne2 hdiff hfresh
  have hid2 : (applyFields (applyName user b.name?) b).id = user.id := by
    rw [applyFields_id, applyName_id]
  have hsnd : (updateProfile s ah b).2
      = delKey s userEmail ++ [(newEmail, applyFields (applyName user b.name?) b)] := by
    rw [heq]
    show delKey (setKey s newEmail _) userEmail = _
    rw [setKey_of_getKey_none s newEmail _ hfresh]
    unfold delKey
    rw [List.filter_append]
    congr 1
    simp [hdiff]
  have hfind' : findById (updateProfile s ah b).2 user.id
      = some (newEmail, applyFields (applyName user b.name?) b) := by
    rw [hsnd]
    rw [findById_append_of_none _ _ _
      (findById_delKey_of_idsNodup s user.id userEmail user hid hfind)]
    rw [findById_cons, if_pos hid2]
  refine ⟨applyFields (applyName user b.name?) b, by rw [heq], hid2,
    by rw [applyFields_password, applyName_password], hfind', ?_, ?_, ?_, ?_, ?_, ?_⟩
  · unfold profileGet
    simp [hext, htne, htuid, hfind']
  · intro hn
    rw [applyFields_name, applyName_name, hn]
    simp [truthyS]
  · intro hmob
    rw [applyFields_mobileNumber, hmob, applyName_mobileNumber]
  · intro halt
    rw [applyFields_alternativeNumber, halt, applyName_alternativeNumber]
  · intro haad
    rw [applyFields_aadharNumber, haad, applyName_aadharNumber]
  · intro hav
    rw [applyFields_avatar, hav, applyName_avatar]

/-- Witness for C3: renaming the demo user a@x.com to the unused c@x.com. -/
theorem updateProfile_rekey_preserves_witness :
    ∃ u', (updateProfile demoStore (some "Bearer token-1000")
        { email? := some "c@x.com" }).1
        = .ok ⟨"Profile updated successfully", profileView u'⟩ ∧
      u'.id = annUser.id ∧ u'.password = annUser.password ∧
      findById (updateProfile demoStore (some "Bearer token-1000")
        { email? := some "c@x.com" }).2 annUser.id = some ("c@x.com", u') ∧
      (profileGet (updateProfile demoStore (some "Bearer token-1000")
        { email? := some "c@x.com" }).2 (some "Bearer token-1000")).1
        = .ok (profileView u') ∧
      ((UpdateBody.mk none (some "c@x.com") none none none none).name? = none →
        u'.name = annUser.name) ∧
      ((UpdateBody.mk none (some "c@x.com") none none none none).mobileNumber? = none →
        u'.mobileNumber = annUser.mobileNumber) ∧
      ((UpdateBody.mk none (some "c@x.com") none none none none).alternativeNumber? = none →
        u'.alternativeNumber = annUser.alternativeNumber) ∧
      ((UpdateBody.mk none (some "c@x.com") none none none none).aadharNumber? = none →
        u'.aadharNumber = annUser.aadharNumber) ∧
      ((UpdateBody.mk none (some "c@x.com") none none none none).avatar? = none →
        u'.avatar = annUser.avatar) :=
  updateProfile_rekey_preserves demoStore (some "Bearer token-1000") "token-1000"
    "a@x.com" "c@x.com" annUser { email? := some "c@x.com" }
    (by decide) (by decide) (by decide) (by decide) (by decide) (by decide)
    (by decide) (by decide) (by decide)

/-- C6: for a truthy email and a password of length at least 6 whose email
is not yet registered, register succeeds and a subsequent login with the
same credentials succeeds, both returning the same token, which encodes the
same user id both times. -/
theorem register_then_login (s : Store) (now : Nat) (e p : String) (n : Option String)
    (he : e ≠ "") (hp : 6 ≤ p.length) (hfresh : getKey s e = none) :
    ∃ a b2, (register s now (some e) (some p) n).1 = .ok a ∧
      (login (register s now (some e) (some p) n).2 (some e) (some p)).1 = .ok b2 ∧
      a.token = b2.token ∧ a.user.id = b2.user.id ∧
      a.token = "token-" ++ a.user.id := by
  have hpne : p ≠ "" := by
    intro hh
    rw [hh] at hp
    simp at hp
  have he' : truthyS (some e) = true := by simp [truthyS, he]
  have hp' : truthyS (some p) = true := by simp [truthyS, hpne]
  have hlen : ¬(p.length < 6) := by omega
  have hreg : register s now (some e) (some p) n =
      (.ok ⟨"token-" ++ natToString now,
            ⟨natToString now, e, if truthyS n then n.getD "" else localPart e⟩⟩,
       setKey s e { id := natToString now, email := e, password := p,
                    name := if truthyS n then n.getD "" else localPart e }) := by
    unfold register
    simp [he', hp', hlen, hfresh]
  rw [hreg]
  refine ⟨_, _, rfl, ?_, rfl, rfl, rfl⟩
  unfold login
  simp only [he', hp', Option.getD_some, getKey_setKey_self]
  simp

/-- Witness for C6: a concrete registration followed by a login. -/
theorem register_then_login_witness :
    ∃ a b2, (register [] 7 (some "a@x.com") (some "secret1") none).1 = .ok a ∧
      (login (register [] 7 (some "a@x.com") (some "secret1") none).2
          (some "a@x.com") (some "secret1")).1 = .ok b2 ∧
      a.token = b2.token ∧ a.user.id = b2.user.id ∧
      a.token = "token-" ++ a.user.id :=
  register_then_login [] 7 "a@x.com" "secret1" none (by decide) (by decide) rfl

/-- C9: on every successful updateProfile the stored caller record (found
under some key of the resulting store, which is also the record echoed in
the response) has `mobileNumber`, `alternativeNumber`, `aadharNumber` and
`avatar` overwritten exactly when the corresponding key is present in the
request — including explicit empty-string and null values — while `name` is
overwritten only when the provided value is truthy; absent keys leave the
field unchanged, and id, stored email and password are untouched. -/
theorem updateProfile_field_application (s : Store) (ah : Option String)
    (tok uid userEmail : String) (user : User) (b : UpdateBody)
    (hext : extractToken ah = some tok) (htne : tok ≠ "")
    (htuid : tokenUserId tok = some uid)
    (hfind : findById s uid = some (userEmail, user))
    (hsucc : ∃ out, (updateProfile s ah b).1 = .ok out) :
    ∃ k u', getKey (updateProfile s ah b).2 k = some u' ∧
      (updateProfile s ah b).1
        = .ok ⟨"Profile updated successfully", profileView u'⟩ ∧
      u'.name = (if truthyS b.name? then b.name?.getD "" else user.name) ∧
      u'.mobileNumber = (match b.mobileNumber? with
        | some v => some v
        | none => user.mobileNumber) ∧
      u'.alternativeNumber = (match b.alternativeNumber? with
        | some v => some v
        | none => user.alternativeNumber) ∧
      u'.aadharNumber = (match b.aadharNumber? with
        | some v => some v
        | none => user.aadharNumber) ∧
      u'.avatar = (match b.avatar? with
        | some v => some v
        | none => user.avatar) ∧
      u'.id = user.id ∧ u'.email = user.email ∧ u'.password = user.password := by
  have hname : (applyFields (applyName user b.name?) b).name
      = (if truthyS b.name? then b.name?.getD "" else user.name) := by
    rw [applyFields_name, applyName_name]
  have hmob : (applyFields (applyName user b.name?) b).mobileNumber
      = (match b.mobileNumber? with
         | some v => some v
         | none => user.mobileNumber) := by
    rw [applyFields_mobileNumber, applyName_mobileNumber]
  have halt : (applyFields (applyName user b.name?) b).alternativeNumber
      = (match b.alternativeNumber? with
         | some v => some v
         | none => user.alternativeNumber) := by
    rw [applyFields_alternativeNumber, applyName_alternativeNumber]
  have haad : (applyFields (applyName user b.name?) b).aadharNumber
      = (match b.aadharNumber? with
         | some v => some v
         | none => user.aadharNumber) := by
    rw [applyFields_aadharNumber, applyName_aadharNumber]
  have hav : (applyFields (applyName user b.name?) b).avatar
      = (match b.avatar? with
         | some v => some v
         | none => user.avatar) := by
    rw [applyFields_avatar, applyName_avatar]
  have hid2 : (applyFields (applyName user b.name?) b).id = user.id := by
    rw [applyFields_id, applyName_id]
  have hem : (applyFields (applyName user b.name?) b).email = user.email := by
    rw [applyFields_email, applyName_email]
  have hpw : (applyFields (applyName user b.name?) b).password = user.password := by
    rw [applyFields_password, applyName_password]
  by_cases hcond : (truthyS b.email? && decide (b.email?.getD "" ≠ userEmail)) = true
  · obtain ⟨e0, hb⟩ : ∃ e0, b.email? = some e0 := by
      rcases hbe : b.email? with _ | e0
      · rw [hbe] at hcond
        simp [truthyS] at hcond
      · exact ⟨e0, rfl⟩
    rw [hb] at hcond
    simp only [Bool.and_eq_true, decide_eq_true_eq, truthyS, Option.getD_some,
      ne_eq] at hcond
    have hne2 : e0 ≠ "" := by simpa using hcond.1
    have hdiff : e0 ≠ userEmail := hcond.2
    by_cases htaken : (getKey s e0).isSome = true
    · exfalso
      obtain ⟨out, hout⟩ := hsucc
      rw [updateProfile_conflict_eq s ah tok uid userEmail e0 user b
        hext htne htuid hfind hb hne2 hdiff htaken] at hout
      simp at hout
    · have hfresh : getKey s e0 = none := by
        rcases hg : getKey s e0 with _ | u0
        · rfl
        · rw [hg] at htaken
          simp at htaken
      have heq := updateProfile_rekey_eq s ah tok uid userEmail e0 user b
        hext htne htuid hfind hb hne2 hdiff hfresh
      refine ⟨e0, applyFields (applyName user b.name?) b, ?_, by rw [heq],
        hname, hmob, halt, haad, hav, hid2, hem, hpw⟩
      rw [heq]
      show getKey (delKey (setKey s e0 _) userEmail) e0 = _
      rw [setKey_of_getKey_none s e0 _ hfresh]
      unfold delKey
      rw [List.filter_append]
      have hkeep : List.filter (fun p => p.1 ≠ userEmail)
          ([(e0, applyFields (applyName user b.name?) b)] : Store)
          = [(e0, applyFields (applyName user b.name?) b)] := by
        simp [hdiff]
      rw [hkeep, ← delKey]
      rw [getKey_append_of_none _ _ _ (getKey_delKey_of_none s userEmail e0 hfresh)]
      rw [getKey_cons]
      simp
  · have hcond' : (truthyS b.email? && decide (b.email?.getD "" ≠ userEmail)) = false := by
      revert hcond
      cases truthyS b.email? && decide (b.email?.getD "" ≠ userEmail) <;> simp
    have heq := updateProfile_norekey_eq s ah tok uid userEmail user b
      hext htne htuid hfind hcond'
    refine ⟨userEmail, applyFields (applyName user b.name?) b, ?_, by rw [heq],
      hname, hmob, halt, haad, hav, hid2, hem, hpw⟩
    rw [heq]
    exact getKey_setKey_self s userEmail _

/-- Witness for C9: an update setting name, a mobile number, an explicit
null alternative number and an explicit empty avatar, on the demo store. -/
theorem updateProfile_field_application_witness :
    ∃ k u', getKey (updateProfile demoStore (some "Bearer token-1000")
        { name? := some "Nina", mobileNumber? := some (.str "999"),
          alternativeNumber? := some .null, avatar? := some (.str "") }).2 k
        = some u' ∧
      (updateProfile demoStore (some "Bearer token-1000")
        { name? := some "Nina", mobileNumber? := some (.str "999"),
          alternativeNumber? := some .null, avatar? := some (.str "") }).1
        = .ok ⟨"Profile updated successfully", profileView u'⟩ ∧
      u'.name = (if truthyS (some "Nina") then (some "Nina").getD "" else annUser.name) ∧
      u'.mobileNumber = (match (some (JsVal.str "999") : Option JsVal) with
        | some v => some v
        | none => annUser.mobileNumber) ∧
      u'.alternativeNumber = (match (some JsVal.null : Option JsVal) with
        | some v => some v
        | none => annUser.alternativeNumber) ∧
      u'.aadharNumber = (match (none : Option JsVal) with
        | some v => some v
        | none => annUser.aadharNumber) ∧
      u'.avatar = (match (some (JsVal.str "") : Option JsVal) with
        | some v => some v
        | none => annUser.avatar) ∧
      u'.id = annUser.id ∧ u'.email = annUser.email ∧ u'.password = annUser.password :=
  updateProfile_field_application demoStore (some "Bearer token-1000") "token-1000"
    "1000" "a@x.com" annUser
    { name? := some "Nina", mobileNumber? := some (.str "999"),
      alternativeNumber? := some .null, avatar? := some (.str "") }
    (by decide) (by decide) (by decide) (by decide)
    ⟨⟨"Profile updated successfully",
      ⟨"1000", "a@x.com", "Nina", "999", "", "", .null⟩⟩, by decide⟩

/-- C10: store evolution across the operations — register appends exactly
one record on success and leaves the store unchanged on every failure;
login, profile GET, forgot-password and logout never change the store;
updateProfile preserves, for every id, the number of email keys holding a
record with that id (so the caller's id maps to exactly one key before and
after a re-key, given key uniqueness), and consequently the set of stored
ids never shrinks. -/
theorem store_operations_evolution (s : Store) (hnd : keysNodup s) :
    (∀ now e p n a, (register s now e p n).1 = .ok a →
      ∃ u, (register s now e p n).2 = s ++ [(e.getD "", u)] ∧ u.id = a.user.id) ∧
    (∀ now e p n err, (register s now e p n).1 = .error err →
      (register s now e p n).2 = s) ∧
    (∀ e p, (login s e p).2 = s) ∧
    (∀ ah, (profileGet s ah).2 = s) ∧
    (∀ e, (forgotPassword s e).2 = s) ∧
    ((logout s).2 = s) ∧
    (∀ ah b i, countId (updateProfile s ah b).2 i = countId s i) ∧
    (∀ ah b i, i ∈ storeIds s → i ∈ storeIds (updateProfile s ah b).2) := by
  have hupd : ∀ ah b i, countId (updateProfile s ah b).2 i = countId s i := by
    intro ah b i
    rcases hex : extractToken ah with _ | tok
    · unfold updateProfile
      rw [hex]
    · by_cases htne : tok = ""
      · unfold updateProfile
        simp [hex, htne]
      · rcases huid : tokenUserId tok with _ | uid
        · unfold updateProfile
          simp [hex, htne, huid]
        · rcases hfind : findById s uid with _ | ⟨userEmail, user⟩
          · unfold updateProfile
            simp [hex, htne, huid, hfind]
          · have hmem := findById_mem s uid userEmail user hfind
            by_cases hcond :
                (truthyS b.email? && decide (b.email?.getD "" ≠ userEmail)) = true
            · obtain ⟨e0, hb⟩ : ∃ e0, b.email? = some e0 := by
                rcases hbe : b.email? with _ | e0
                · rw [hbe] at hcond
                  simp [truthyS] at hcond
                · exact ⟨e0, rfl⟩
              rw [hb] at hcond
              simp only [Bool.and_eq_true, decide_eq_true_eq, truthyS,
                Option.getD_some, ne_eq] at hcond
              have hne2 : e0 ≠ "" := by simpa using hcond.1
              have hdiff : e0 ≠ userEmail := hcond.2
              by_cases htaken : (getKey s e0).isSome = true
              · rw [updateProfile_conflict_eq s ah tok uid userEmail e0 user b
                  hex htne huid hfind hb hne2 hdiff htaken]
                exact countId_setKey s userEmail user _ i hnd hmem
                  (applyName_id user b.name?)
              · have hfresh : getKey s e0 = none := by
                  rcases hg : getKey s e0 with _ | u0
                  · rfl
                  · rw [hg] at htaken
                    simp at htaken
                rw [updateProfile_rekey_eq s ah tok uid userEmail e0 user b
                  hex htne huid hfind hb hne2 hdiff hfresh]
                show countId (delKey (setKey s e0 _) userEmail) i = countId s i
                rw [setKey_of_getKey_none s e0 _ hfresh]
                unfold delKey
                rw [List.filter_append]
                have hkeep : List.filter (fun p => p.1 ≠ userEmail)
                    ([(e0, applyFields (applyName user b.name?) b)] : Store)
                    = [(e0, applyFields (applyName user b.name?) b)] := by
                  simp [hdiff]
                rw [hkeep, ← delKey, countId_append]
                have h1 := countId_delKey s userEmail user i hnd hmem
                have h2 : countId ([(e0, applyFields (applyName user b.name?) b)] : Store) i
                    = if user.id = i then 1 else 0 := by
                  rw [countId_cons, applyFields_id, applyName_id]
                  simp [countId]
                rw [h2]
                omega
            · have hcond' :
                  (truthyS b.email? && decide (b.email?.getD "" ≠ userEmail)) = false := by
                revert hcond
                cases truthyS b.email? && decide (b.email?.getD "" ≠ userEmail) <;> simp
              rw [updateProfile_norekey_eq s ah tok uid userEmail user b
                hex htne huid hfind hcond']
              exact countId_setKey s userEmail user _ i hnd hmem
                (by rw [applyFields_id, applyName_id])
  refine ⟨?_, ?_, ?_, ?_, ?_, rfl, hupd, ?_⟩
  · intro now e p n a h
    by_cases c1 : (decide (truthyS e = false) || decide (truthyS p = false)) = true
    · exfalso
      unfold register at h
      rw [if_pos c1] at h
      exact Except.noConfusion h
    · by_cases c2 : (p.getD "").length < 6
      · exfalso
        unfold register at h
        simp only [] at h
        rw [if_neg c1, if_pos c2] at h
        exact Except.noConfusion h
      · by_cases c3 : (getKey s (e.getD "")).isSome = true
        · exfalso
          unfold register at h
          simp only [] at h
          rw [if_neg c1, if_neg c2, if_pos c3] at h
          exact Except.noConfusion h
        · have hfresh : getKey s (e.getD "") = none := by
            rcases hg : getKey s (e.getD "") with _ | u0
            · rfl
            · rw [hg] at c3
              simp at c3
          refine ⟨{ id := natToString now, email := e.getD "", password := p.getD "",
                    name := if truthyS n then n.getD "" else localPart (e.getD "") }, ?_, ?_⟩
          · show (register s now e p n).2 = _
            unfold register
            simp only []
            rw [if_neg c1, if_neg c2, if_neg c3]
            show setKey s (e.getD "") _ = _
            rw [setKey_of_getKey_none s (e.getD "") _ hfresh]
          · unfold register at h
            simp only [] at h
            rw [if_neg c1, if_neg c2, if_neg c3] at h
            have h' := Except.ok.inj h
            rw [← h']
  · intro now e p n err h
    by_cases c1 : (decide (truthyS e = false) || decide (truthyS p = false)) = true
    · unfold register
      rw [if_pos c1]
    · by_cases c2 : (p.getD "").length < 6
      · unfold register
        simp only []
        rw [if_neg c1, if_pos c2]
      · by_cases c3 : (getKey s (e.getD "")).isSome = true
        · unfold register
          simp only []
          rw [if_neg c1, if_neg c2, if_pos c3]
        · exfalso
          unfold register at h
          simp only [] at h
          rw [if_neg c1, if_neg c2, if_neg c3] at h
          exact Except.noConfusion h
  · intro e p
    unfold login
    simp only []
    split
    · rfl
    · split
      · rfl
      · split <;> rfl
  · intro ah
    unfold profileGet
    split
    · rfl
    · split
      · rfl
      · split
        · rfl
        · split <;> rfl
  · intro e
    unfold forgotPassword
    split
    · rfl
    · split <;> rfl
  · intro ah b i him
    have h1 := (countId_pos_iff s i).mpr him
    rw [← hupd ah b i] at h1
    exact (countId_pos_iff _ i).mp h1

/-- Witness for C10: login on the demo store returns it unchanged. -/
theorem store_operations_evolution_witness :
    (login demoStore (some "a@x.com") (some "secret1")).2 = demoStore :=
  (store_operations_evolution demoStore (by decide)).2.2.1
    (some "a@x.com") (some "secret1")

end GudageHospital
